import Mathlib

/-!
Verification of the TwoBody celestial-mechanics module (`twobody/core.py`).

The module converts between mean, eccentric and true anomaly of a Keplerian
orbit and evaluates line-of-sight position and radial velocity over arrays of
observation times.  Arrays are embedded as `List ℝ` with elementwise maps,
floating-point numbers as real numbers, and the Newton iteration of the Kepler
solver as a fuel-indexed recursion.  The Python `assert` in the true-anomaly
derivative is embedded as an `Option`-valued result (`none` = assertion
failure).
-/

open Real

noncomputable section

namespace TwoBody

/-- The module-level constant `au_per_day_m_s = (1*u.m/u.s*u.day).to(u.au).value`:
one metre per second times one day, expressed in astronomical units
(86400 seconds per day, 149597870700 metres per AU). -/
def au_per_day_m_s : ℝ := 86400 / 149597870700

/-- Modelled from the spec: `mean_from_eccentric(E, e) -> M`, `M = E − e·sin(E)`,
elementwise.  The implementation `_mean_anomaly_from_eccentric_anomaly` is
imported from a `wrap` module that is not part of the repository sources. -/
def mean_anomaly_from_eccentric_anomaly (E e : ℝ) : ℝ :=
  E - e * Real.sin E

/-- One Newton–Raphson step for Kepler's equation `g(E) = E − e·sin E − M`,
with `g'(E) = 1 − e·cos E`: `E ↦ E − g(E)/g'(E)`. -/
def keplerStep (M e E : ℝ) : ℝ :=
  E - (E - e * Real.sin E - M) / (1 - e * Real.cos E)

/-- Modelled from the spec: the Newton loop of the Kepler solver.  Starting
from the current iterate `E`, perform up to `n` further iterations; after each
step `E' = keplerStep M e E`, stop and return `E'` when `|E' − E| < tol`,
otherwise continue; when the iteration budget is exhausted return the current
iterate. -/
def newtonLoop (M e tol : ℝ) : ℕ → ℝ → ℝ
  | 0, E => E
  | n + 1, E =>
    if |keplerStep M e E - E| < tol then keplerStep M e E
    else newtonLoop M e tol n (keplerStep M e E)

/-- Modelled from the spec: `solve_eccentric_from_mean(M, e, tol, max_iter)`.
Newton–Raphson on `g(E) = E − e·sin E − M` with initial guess `E₀ = M`,
stopping when the step magnitude drops below `tol` or after `maxiter`
iterations, returning the final iterate either way.  (The Python wrapper
`eccentric_anomaly_from_mean_anomaly` defaults `tol = 1e-10`,
`maxiter = 128`; the implementation
`_eccentric_anomaly_from_mean_anomaly_Newton1` is imported from a `wrap`
module not present in the repository sources.) -/
def eccentric_anomaly_from_mean_anomaly (M e tol : ℝ) (maxiter : ℕ) : ℝ :=
  newtonLoop M e tol maxiter M

/-- `true_anomaly_from_eccentric_anomaly(Es, e)` from `core.py`:
`fs = arccos((cos E − e)/(1 − e·cos E))`, returned as
`fs * sign(sin fs) * sign(sin E)` (elementwise; `np.sign 0 = 0`, matching
`Real.sign`). -/
def true_anomaly_from_eccentric_anomaly (Es e : ℝ) : ℝ :=
  let fs := Real.arccos ((Real.cos Es - e) / (1 - e * Real.cos Es))
  fs * Real.sign (Real.sin fs) * Real.sign (Real.sin Es)

/-- `d_eccentric_anomaly_d_mean_anomaly(Es, e)` from `core.py`:
`1 / (1 − e·cos E)`. -/
def d_eccentric_anomaly_d_mean_anomaly (Es e : ℝ) : ℝ :=
  1 / (1 - e * Real.cos Es)

/-- `d_true_anomaly_d_eccentric_anomaly(Es, fs, e)` from `core.py`.  The
Python body is `assert np.allclose(cos E, (e + cos f)/(1 + e·cos f))` followed
by `return (sin E / sin f) * (1 + e·cos f) / (1 − e·cos E)`.  The assertion is
embedded as `none` (assertion failure raises) and `np.allclose` for scalars as
`|a − b| ≤ atol + rtol·|b|` with the NumPy defaults `rtol = 1e-5`,
`atol = 1e-8`. -/
def d_true_anomaly_d_eccentric_anomaly (Es fs e : ℝ) : Option ℝ :=
  if |Real.cos Es - (e + Real.cos fs) / (1 + e * Real.cos fs)| ≤
      1e-8 + 1e-5 * |(e + Real.cos fs) / (1 + e * Real.cos fs)| then
    some (Real.sin Es / Real.sin fs * (1 + e * Real.cos fs) / (1 - e * Real.cos Es))
  else
    none

/-- `Z_from_elements(times, P, K, e, omega, time0)` from `core.py`:
`dMdt = 2π/P`, `Ms = (times − time0)·dMdt`, `Es` from the solver with its
default tolerance `1e-10` and iteration cap `128`, `fs` from the true-anomaly
conversion, `a1sini = K/(2π)·(P·sqrt(1−e²))·au_per_day_m_s`,
`rs = a1sini·(1 − e·cos Es)`, returning `rs·sin(omega + fs)` elementwise. -/
def Z_from_elements (times : List ℝ) (P K e omega time0 : ℝ) : List ℝ :=
  let dMdt := 2 * π / P
  let Ms := times.map fun t => (t - time0) * dMdt
  let Es := Ms.map fun M => eccentric_anomaly_from_mean_anomaly M e 1e-10 128
  let a1sini := K / (2 * π) * (P * Real.sqrt (1 - e ^ 2)) * au_per_day_m_s
  Es.map fun E =>
    a1sini * (1 - e * Real.cos E) *
      Real.sin (omega + true_anomaly_from_eccentric_anomaly E e)

/-- `rv_from_elements(times, P, K, e, omega, phi0, anomaly_tol)` from
`core.py`: `Ms = 2π·times/P − phi0`, `Es` from the solver with tolerance
`anomaly_tol` (default `1e-13`) and the solver's default iteration cap `128`,
`fs` from the true-anomaly conversion, returning
`K·(cos(omega + fs) + e·cos omega)` elementwise. -/
def rv_from_elements (times : List ℝ) (P K e omega phi0 anomaly_tol : ℝ) : List ℝ :=
  let Ms := times.map fun t => 2 * π * t / P - phi0
  let Es := Ms.map fun M => eccentric_anomaly_from_mean_anomaly M e anomaly_tol 128
  let fs := Es.map fun E => true_anomaly_from_eccentric_anomaly E e
  fs.map fun f => K * (Real.cos (omega + f) + e * Real.cos omega)

/-- Spec-side formula for the radial velocity, written from the spec's words:
for each time `t`, form `M(t) = 2π·t/P − φ0`, solve for `E` with tolerance
`anomaly_tol`, derive `f`, and return `K·(cos(ω + f) + e·cos ω)` with no
systemic-velocity term. -/
def rv_spec_formula (times : List ℝ) (P K e omega phi0 anomaly_tol : ℝ) : List ℝ :=
  times.map fun t =>
    K * (Real.cos (omega +
          true_anomaly_from_eccentric_anomaly
            (eccentric_anomaly_from_mean_anomaly (2 * π * t / P - phi0) e anomaly_tol 128) e) +
        e * Real.cos omega)

/-- Spec-side formula for the line-of-sight position, written from the spec's
words: for each time `t`, form `M(t) = (t − time0)·2π/P`, solve for `E`,
derive `f`, form `a₁sin i = K/(2π)·P·sqrt(1−e²)` times the velocity×time→length
conversion constant, set `r = a₁sin i·(1 − e·cos E)`, and return
`r·sin(ω + f)` with no position zero-point offset. -/
def Z_spec_formula (times : List ℝ) (P K e omega time0 : ℝ) : List ℝ :=
  times.map fun t =>
    K / (2 * π) * (P * Real.sqrt (1 - e ^ 2)) * au_per_day_m_s *
      (1 - e * Real.cos (eccentric_anomaly_from_mean_anomaly ((t - time0) * (2 * π / P)) e 1e-10 128)) *
      Real.sin (omega +
        true_anomaly_from_eccentric_anomaly
          (eccentric_anomaly_from_mean_anomaly ((t - time0) * (2 * π / P)) e 1e-10 128) e)

/-! ### Helper lemmas about the Newton loop -/

/-- The Newton loop always returns some iterate of the Newton step, reached
after at most its iteration budget. -/
lemma newtonLoop_eq_iterate (M e tol : ℝ) :
    ∀ (n : ℕ) (E : ℝ), ∃ k, k ≤ n ∧ newtonLoop M e tol n E = (keplerStep M e)^[k] E := by
  intro n
  induction n with
  | zero =>
    intro E
    exact ⟨0, le_refl 0, rfl⟩
  | succ m ih =>
    intro E
    by_cases h : |keplerStep M e E - E| < tol
    · refine ⟨1, Nat.succ_le_succ (Nat.zero_le m), ?_⟩
      simp [newtonLoop, h]
    · obtain ⟨k, hk, heq⟩ := ih (keplerStep M e E)
      refine ⟨k + 1, Nat.succ_le_succ hk, ?_⟩
      simp only [newtonLoop, if_neg h, heq, Function.iterate_succ_apply]

/-- At zero eccentricity one Newton step lands exactly on `M`. -/
lemma keplerStep_e_zero (M E : ℝ) : keplerStep M 0 E = M := by
  simp [keplerStep]

/-- At zero eccentricity the Newton loop started from `M` returns `M` exactly,
for any iteration budget and tolerance. -/
lemma newtonLoop_e_zero (M tol : ℝ) :
    ∀ n : ℕ, newtonLoop M 0 tol n M = M := by
  intro n
  induction n with
  | zero => rfl
  | succ m ih =>
    simp only [newtonLoop, keplerStep_e_zero]
    split_ifs with h
    · rfl
    · exact ih

/-- At zero eccentricity the true anomaly equals the eccentric anomaly on the
principal branch `(-π, π)`. -/
lemma true_anomaly_e_zero (E : ℝ) (h1 : -π < E) (h2 : E < π) :
    true_anomaly_from_eccentric_anomaly E 0 = E := by
  have harg : (Real.cos E - 0) / (1 - 0 * Real.cos E) = Real.cos E := by
    ring
  rcases lt_trichotomy E 0 with hE | hE | hE
  · have hcos : Real.arccos (Real.cos E) = -E := by
      rw [← Real.cos_neg E]
      exact Real.arccos_cos (by linarith) (by linarith)
    have hsinE : Real.sin E < 0 := Real.sin_neg_of_neg_of_neg_pi_lt hE h1
    have hsinf : Real.sin (-E) = -Real.sin E := Real.sin_neg E
    simp only [true_anomaly_from_eccentric_anomaly, harg, hcos, hsinf]
    rw [Real.sign_of_pos (by linarith), Real.sign_of_neg hsinE]
    ring
  · subst hE
    simp [true_anomaly_from_eccentric_anomaly]
  · have hcos : Real.arccos (Real.cos E) = E :=
      Real.arccos_cos (le_of_lt hE) (le_of_lt h2)
    have hsinE : 0 < Real.sin E := Real.sin_pos_of_pos_of_lt_pi hE h2
    simp only [true_anomaly_from_eccentric_anomaly, harg, hcos]
    rw [Real.sign_of_pos hsinE]
    ring

/-! ### Claim theorems -/

/-- Claim C2: for every mean anomaly `M`, eccentricity `e`, tolerance `tol`
and iteration cap `maxiter`, the solver is a total function that returns the
final Newton iterate — some `k`-fold application of the Newton step to the
initial guess `E₀ = M` with `k ≤ maxiter` — never an error, even when the
tolerance was not met. -/
theorem solver_total_returns_newton_iterate (M e tol : ℝ) (maxiter : ℕ) :
    ∃ k, k ≤ maxiter ∧
      eccentric_anomaly_from_mean_anomaly M e tol maxiter = (keplerStep M e)^[k] M :=
  newtonLoop_eq_iterate M e tol maxiter M

/-- Claim C3, counterexample: at `e = 0` and `M = π`, the solver does return
`E = M = π` exactly, but the true anomaly computed from that `E` is `0`, not
`E` — so "`f = E` for every real mean anomaly `M`" fails at `M = π`. -/
theorem zero_ecc_true_anomaly_counterexample :
    eccentric_anomaly_from_mean_anomaly π 0 1e-10 128 = π ∧
    true_anomaly_from_eccentric_anomaly π 0 = 0 ∧ (0 : ℝ) ≠ π := by
  refine ⟨newtonLoop_e_zero π 1e-10 128, ?_, (Real.pi_ne_zero).symm⟩
  simp [true_anomaly_from_eccentric_anomaly, Real.sin_pi, Real.sign_zero]

/-- Claim C3, amended: for `e = 0` the solver returns `E = M` exactly (the
initial guess already solves Kepler's equation and one Newton step leaves it
unchanged), and the true anomaly satisfies `f = E` exactly for `E` on the
principal branch `(-π, π)`; outside that interval `f` differs from `E`. -/
theorem zero_ecc_solver_exact (M E tol : ℝ) (maxiter : ℕ)
    (h1 : -π < E) (h2 : E < π) :
    eccentric_anomaly_from_mean_anomaly M 0 tol maxiter = M ∧
    true_anomaly_from_eccentric_anomaly E 0 = E :=
  ⟨newtonLoop_e_zero M tol maxiter, true_anomaly_e_zero E h1 h2⟩

/-- Witness for C3's amended theorem at `M = 1`, `E = 1`, `tol = 1e-10`,
`maxiter = 128`. -/
theorem zero_ecc_solver_exact_witness :
    eccentric_anomaly_from_mean_anomaly 1 0 1e-10 128 = 1 ∧
    true_anomaly_from_eccentric_anomaly 1 0 = 1 :=
  zero_ecc_solver_exact 1 1 1e-10 128
    (by linarith [Real.pi_gt_three]) (by linarith [Real.pi_gt_three])

/-- For `0 ≤ e < 1` the denominator `1 − e·cos E` of the true-anomaly
argument is strictly positive. -/
lemma denom_pos (E e : ℝ) (he0 : 0 ≤ e) (he1 : e < 1) :
    0 < 1 - e * Real.cos E := by
  have h1 : e * Real.cos E ≤ e * 1 :=
    mul_le_mul_of_nonneg_left (Real.cos_le_one E) he0
  linarith

/-- When `sin E ≠ 0`, `cos E` lies strictly inside `(-1, 1)`. -/
lemma cos_mem_open_interval_of_sin_ne_zero (E : ℝ) (hs : Real.sin E ≠ 0) :
    -1 < Real.cos E ∧ Real.cos E < 1 := by
  have hpyth := Real.sin_sq_add_cos_sq E
  constructor
  · rcases lt_or_eq_of_le (Real.neg_one_le_cos E) with h | h
    · exact h
    · exfalso
      apply hs
      have h2 : Real.sin E ^ 2 = 0 := by nlinarith
      exact pow_eq_zero_iff (two_ne_zero) |>.mp h2
  · rcases lt_or_eq_of_le (Real.cos_le_one E) with h | h
    · exact h
    · exfalso
      apply hs
      have h2 : Real.sin E ^ 2 = 0 := by nlinarith
      exact pow_eq_zero_iff (two_ne_zero) |>.mp h2

/-- When `sin E ≠ 0` and `0 ≤ e < 1`, the arccos argument
`(cos E − e)/(1 − e·cos E)` lies strictly inside `(-1, 1)`. -/
lemma arg_mem_open_interval (E e : ℝ) (he0 : 0 ≤ e) (he1 : e < 1)
    (hs : Real.sin E ≠ 0) :
    -1 < (Real.cos E - e) / (1 - e * Real.cos E) ∧
      (Real.cos E - e) / (1 - e * Real.cos E) < 1 := by
  have hd := denom_pos E e he0 he1
  obtain ⟨hc1, hc2⟩ := cos_mem_open_interval_of_sin_ne_zero E hs
  constructor
  · rw [lt_div_iff₀ hd]
    nlinarith [mul_pos (by linarith : (0:ℝ) < 1 - e) (by linarith : (0:ℝ) < 1 + Real.cos E)]
  · rw [div_lt_one hd]
    nlinarith [mul_pos (by linarith : (0:ℝ) < 1 + e) (by linarith : (0:ℝ) < 1 - Real.cos E)]

/-- Claim C4: for every `E` and `e ∈ [0, 1)` with `sin E ≠ 0`, the sign of
the true anomaly equals the sign of `sin E`; moreover the function is exactly
`f0 · sign(sin f0) · sign(sin E)` with `f0 = arccos((cos E − e)/(1 − e·cos E))`. -/
theorem true_anomaly_sign_consistency (E e : ℝ) (he0 : 0 ≤ e) (he1 : e < 1)
    (hs : Real.sin E ≠ 0) :
    Real.sign (true_anomaly_from_eccentric_anomaly E e) = Real.sign (Real.sin E) ∧
    true_anomaly_from_eccentric_anomaly E e =
      Real.arccos ((Real.cos E - e) / (1 - e * Real.cos E)) *
        Real.sign (Real.sin (Real.arccos ((Real.cos E - e) / (1 - e * Real.cos E)))) *
        Real.sign (Real.sin E) := by
  obtain ⟨hx1, hx2⟩ := arg_mem_open_interval E e he0 he1 hs
  refine ⟨?_, rfl⟩
  set x := (Real.cos E - e) / (1 - e * Real.cos E) with hxdef
  have hf0pos : 0 < Real.arccos x := Real.arccos_pos.mpr hx2
  have hf0lt : Real.arccos x < π := by
    rcases lt_or_eq_of_le (Real.arccos_le_pi x) with h | h
    · exact h
    · exact absurd (Real.arccos_eq_pi.mp h) (by linarith)
  have hsinf0 : 0 < Real.sin (Real.arccos x) :=
    Real.sin_pos_of_pos_of_lt_pi hf0pos hf0lt
  simp only [true_anomaly_from_eccentric_anomaly]
  rw [← hxdef, Real.sign_of_pos hsinf0, mul_one]
  rcases hs.lt_or_lt with hneg | hpos
  · rw [Real.sign_of_neg hneg, mul_neg_one,
      Real.sign_of_neg (by linarith : -Real.arccos x < 0)]
  · rw [Real.sign_of_pos hpos, mul_one, Real.sign_of_pos hf0pos]

/-- Witness for C4 at `E = π/2`, `e = 1/2`. -/
theorem true_anomaly_sign_consistency_witness :
    Real.sign (true_anomaly_from_eccentric_anomaly (π / 2) (1 / 2)) =
      Real.sign (Real.sin (π / 2)) ∧
    true_anomaly_from_eccentric_anomaly (π / 2) (1 / 2) =
      Real.arccos ((Real.cos (π / 2) - 1 / 2) / (1 - 1 / 2 * Real.cos (π / 2))) *
        Real.sign (Real.sin (Real.arccos ((Real.cos (π / 2) - 1 / 2) / (1 - 1 / 2 * Real.cos (π / 2))))) *
        Real.sign (Real.sin (π / 2)) :=
  true_anomaly_sign_consistency (π / 2) (1 / 2) (by norm_num) (by norm_num)
    (by rw [Real.sin_pi_div_two]; norm_num)

/-- The real sign function has absolute value at most one. -/
lemma abs_sign_le_one (x : ℝ) : |Real.sign x| ≤ 1 := by
  rcases lt_trichotomy x 0 with h | h | h
  · rw [Real.sign_of_neg h]
    norm_num
  · subst h
    rw [Real.sign_zero]
    norm_num
  · rw [Real.sign_of_pos h]
    norm_num

/-- Claim C10: for every `E` and `e ∈ [0, 1)` the true anomaly lies in
`[-π, π]`, and whenever `sin E = 0` (in particular at apoapsis `E = π`) the
sign factor vanishes and the function returns `0`. -/
theorem true_anomaly_range_and_apoapsis (E e : ℝ) (he0 : 0 ≤ e) (he1 : e < 1) :
    (-π ≤ true_anomaly_from_eccentric_anomaly E e ∧
      true_anomaly_from_eccentric_anomaly E e ≤ π) ∧
    (Real.sin E = 0 → true_anomaly_from_eccentric_anomaly E e = 0) := by
  constructor
  · have habs : |true_anomaly_from_eccentric_anomaly E e| ≤ π := by
      simp only [true_anomaly_from_eccentric_anomaly]
      rw [abs_mul, abs_mul]
      have h0 : |Real.arccos ((Real.cos E - e) / (1 - e * Real.cos E))| ≤ π := by
        rw [abs_of_nonneg (Real.arccos_nonneg _)]
        exact Real.arccos_le_pi _
      have h1 := abs_sign_le_one (Real.sin (Real.arccos ((Real.cos E - e) / (1 - e * Real.cos E))))
      have h2 := abs_sign_le_one (Real.sin E)
      calc |Real.arccos ((Real.cos E - e) / (1 - e * Real.cos E))| *
            |Real.sign (Real.sin (Real.arccos ((Real.cos E - e) / (1 - e * Real.cos E))))| *
            |Real.sign (Real.sin E)| ≤ π * 1 * 1 := by
              gcongr
        _ = π := by ring
    exact abs_le.mp habs
  · intro h
    simp [true_anomaly_from_eccentric_anomaly, h, Real.sign_zero]

/-- Witness for C10 at `E = π`, `e = 1/2`, where `sin E = 0` and the function
returns `0`. -/
theorem true_anomaly_range_and_apoapsis_witness :
    ((-π ≤ true_anomaly_from_eccentric_anomaly π (1 / 2) ∧
      true_anomaly_from_eccentric_anomaly π (1 / 2) ≤ π) ∧
    (Real.sin π = 0 → true_anomaly_from_eccentric_anomaly π (1 / 2) = 0)) :=
  true_anomaly_range_and_apoapsis π (1 / 2) (by norm_num) (by norm_num)

/-- Claim C5: `rv_from_elements` computes, for each time `t`, the mean anomaly
`M(t) = 2π·t/P − φ0` (an angular phase offset, not a time epoch), solves for
`E` with tolerance `anomaly_tol`, derives `f`, and returns
`K·(cos(ω + f) + e·cos ω)` with no systemic-velocity term added. -/
theorem rv_matches_spec_formula (times : List ℝ) (P K e omega phi0 anomaly_tol : ℝ) :
    rv_from_elements times P K e omega phi0 anomaly_tol =
      rv_spec_formula times P K e omega phi0 anomaly_tol := by
  simp only [rv_from_elements, rv_spec_formula, List.map_map]
  rfl

/-- Claim C6: `Z_from_elements` computes, for each time `t`, the mean anomaly
`M(t) = (t − time0)·2π/P`, solves for `E`, derives `f`, forms
`a₁sin i = K/(2π)·P·sqrt(1−e²)` times the velocity×time→length conversion
constant, sets `r = a₁sin i·(1 − e·cos E)`, and returns `r·sin(ω + f)` with no
position zero-point offset added. -/
theorem Z_matches_spec_formula (times : List ℝ) (P K e omega time0 : ℝ) :
    Z_from_elements times P K e omega time0 =
      Z_spec_formula times P K e omega time0 := by
  simp only [Z_from_elements, Z_spec_formula, List.map_map]
  rfl

/-! ### Periodicity of the radial velocity -/

/-- Shifting both the target mean anomaly and the iterate by `2π` commutes
with one Newton step. -/
lemma keplerStep_shift (M e E : ℝ) :
    keplerStep (M + 2 * π) e (E + 2 * π) = keplerStep M e E + 2 * π := by
  simp only [keplerStep, Real.sin_add_two_pi, Real.cos_add_two_pi]
  ring

/-- Shifting both the target mean anomaly and the starting iterate by `2π`
commutes with the whole Newton loop. -/
lemma newtonLoop_shift (M e tol : ℝ) :
    ∀ (n : ℕ) (E : ℝ),
      newtonLoop (M + 2 * π) e tol n (E + 2 * π) = newtonLoop M e tol n E + 2 * π := by
  intro n
  induction n with
  | zero =>
    intro E
    rfl
  | succ m ih =>
    intro E
    simp only [newtonLoop, keplerStep_shift]
    have habs : keplerStep M e E + 2 * π - (E + 2 * π) = keplerStep M e E - E := by
      ring
    rw [habs]
    split_ifs with h
    · rfl
    · exact ih (keplerStep M e E)

/-- The solver commutes with a `2π` shift of the mean anomaly. -/
lemma solver_shift (M e tol : ℝ) (n : ℕ) :
    eccentric_anomaly_from_mean_anomaly (M + 2 * π) e tol n =
      eccentric_anomaly_from_mean_anomaly M e tol n + 2 * π :=
  newtonLoop_shift M e tol n M

/-- The true anomaly is invariant under a `2π` shift of the eccentric
anomaly. -/
lemma true_anomaly_shift (E e : ℝ) :
    true_anomaly_from_eccentric_anomaly (E + 2 * π) e =
      true_anomaly_from_eccentric_anomaly E e := by
  simp only [true_anomaly_from_eccentric_anomaly, Real.sin_add_two_pi,
    Real.cos_add_two_pi]

/-- Claim C7: the radial velocity is exactly periodic in the orbital period —
shifting every observation time by `P` leaves the output unchanged (and on
the concrete scenario of the spec the four values are therefore well-defined
real numbers equal at `times` and `times + P`). -/
theorem rv_periodic_in_P (times : List ℝ) (P K e omega phi0 anomaly_tol : ℝ)
    (hP : 0 < P) :
    rv_from_elements (times.map fun t => t + P) P K e omega phi0 anomaly_tol =
      rv_from_elements times P K e omega phi0 anomaly_tol := by
  simp only [rv_from_elements, List.map_map]
  refine List.map_congr_left ?_
  intro t ht
  simp only [Function.comp_apply]
  have hM : 2 * π * (t + P) / P - phi0 = 2 * π * t / P - phi0 + 2 * π := by
    field_simp
    ring
  rw [hM, solver_shift, true_anomaly_shift]

/-- Witness for C7 on the spec's end-to-end scenario: `P = 10`, `K = 30`,
`e = 0.3`, `ω = 1`, `φ0 = 0`, `times = [0, 2.5, 5, 7.5]`. -/
theorem rv_periodic_in_P_witness :
    rv_from_elements (([0, 5/2, 5, 15/2] : List ℝ).map fun t => t + 10)
        10 30 (3/10) 1 0 1e-13 =
      rv_from_elements [0, 5/2, 5, 15/2] 10 30 (3/10) 1 0 1e-13 :=
  rv_periodic_in_P [0, 5/2, 5, 15/2] 10 30 (3/10) 1 0 1e-13 (by norm_num)

/-! ### The true-anomaly derivative's assertion -/

/-- Claim C8, counterexample: at `Es = 0`, `fs = 1/1000`, `e = 0` the exact
consistency condition `cos E = (e + cos f)/(1 + e·cos f)` fails, yet the
`np.allclose` check accepts the pair (the discrepancy `1 − cos(1/1000)` is
below the tolerance `1e-8 + 1e-5·|cos(1/1000)|`), so the function returns a
value instead of raising an assertion failure. -/
theorem dfdE_assert_counterexample :
    d_true_anomaly_d_eccentric_anomaly 0 (1/1000) 0 ≠ none ∧
    Real.cos 0 ≠ (0 + Real.cos (1/1000)) / (1 + 0 * Real.cos (1/1000)) := by
  have hle : Real.cos (1/1000 : ℝ) ≤ 1 := Real.cos_le_one _
  have hsq := @Real.one_sub_sq_div_two_le_cos (1/1000 : ℝ)
  have hge : (1999999/2000000 : ℝ) ≤ Real.cos (1/1000 : ℝ) := by
    norm_num at hsq
    linarith
  have hne : Real.cos (1/1000 : ℝ) ≠ 1 := by
    intro h
    have h6 : (6 : ℝ) < 2 * π := by linarith [Real.pi_gt_three]
    have := (Real.cos_eq_one_iff_of_lt_of_lt
      (by linarith : -(2 * π) < (1/1000 : ℝ)) (by linarith : (1/1000 : ℝ) < 2 * π)).mp h
    norm_num at this
  constructor
  · have hcond : |Real.cos 0 - (0 + Real.cos (1/1000 : ℝ)) / (1 + 0 * Real.cos (1/1000 : ℝ))| ≤
        1e-8 + 1e-5 * |(0 + Real.cos (1/1000 : ℝ)) / (1 + 0 * Real.cos (1/1000 : ℝ))| := by
      simp only [Real.cos_zero, zero_add, zero_mul, add_zero, div_one]
      rw [abs_of_nonneg (by linarith : (0:ℝ) ≤ 1 - Real.cos (1/1000 : ℝ)),
        abs_of_nonneg (by linarith : (0:ℝ) ≤ Real.cos (1/1000 : ℝ))]
      have e8 : (1e-8 : ℝ) = 1/100000000 := by norm_num
      have e5 : (1e-5 : ℝ) = 1/100000 := by norm_num
      rw [e8, e5]
      linarith
    unfold d_true_anomaly_d_eccentric_anomaly
    rw [if_pos hcond]
    exact Option.some_ne_none _
  · simp only [Real.cos_zero, zero_add, zero_mul, add_zero, div_one]
    exact fun h => hne h.symm

/-- Claim C8, amended: the assertion is the approximate `np.allclose` check,
not the exact condition — when the exact consistency condition holds the
function returns `(sin E / sin f)·(1 + e·cos f)/(1 − e·cos E)` without
raising, and it raises (returns `none`) exactly when the `allclose` tolerance
`|lhs − rhs| ≤ 1e-8 + 1e-5·|rhs|` is violated. -/
theorem dfdE_assert_behavior (Es fs e : ℝ) :
    (Real.cos Es = (e + Real.cos fs) / (1 + e * Real.cos fs) →
      d_true_anomaly_d_eccentric_anomaly Es fs e =
        some (Real.sin Es / Real.sin fs * (1 + e * Real.cos fs) / (1 - e * Real.cos Es))) ∧
    (¬ |Real.cos Es - (e + Real.cos fs) / (1 + e * Real.cos fs)| ≤
        1e-8 + 1e-5 * |(e + Real.cos fs) / (1 + e * Real.cos fs)| →
      d_true_anomaly_d_eccentric_anomaly Es fs e = none) := by
  constructor
  · intro hcons
    unfold d_true_anomaly_d_eccentric_anomaly
    rw [if_pos]
    rw [hcons, sub_self, abs_zero]
    positivity
  · intro hfail
    unfold d_true_anomaly_d_eccentric_anomaly
    rw [if_neg hfail]

/-- Witness for C8's amended theorem at the consistent pair
`Es = fs = π/2`, `e = 0`. -/
theorem dfdE_assert_behavior_witness :
    d_true_anomaly_d_eccentric_anomaly (π/2) (π/2) 0 =
      some (Real.sin (π/2) / Real.sin (π/2) * (1 + 0 * Real.cos (π/2)) /
        (1 - 0 * Real.cos (π/2))) :=
  (dfdE_assert_behavior (π/2) (π/2) 0).1 (by simp [Real.cos_pi_div_two])

/-! ### Amplitude bound on the radial velocity -/

/-- A value of the form `K·(cos a + e·cos b)` is bounded by `K·(1 + e)` for
nonnegative `K` and `e`. -/
lemma abs_K_cos_add_mul_cos_le (K e a b : ℝ) (hK : 0 ≤ K) (he : 0 ≤ e) :
    |K * (Real.cos a + e * Real.cos b)| ≤ K * (1 + e) := by
  rw [abs_mul, abs_of_nonneg hK]
  have h : |Real.cos a + e * Real.cos b| ≤ 1 + e := by
    calc |Real.cos a + e * Real.cos b| ≤ |Real.cos a| + |e * Real.cos b| :=
          abs_add _ _
      _ ≤ 1 + e := by
          rw [abs_mul, abs_of_nonneg he]
          have ha := Real.abs_cos_le_one a
          have hb := Real.abs_cos_le_one b
          nlinarith
  exact mul_le_mul_of_nonneg_left h hK

/-- Claim C9: for nonnegative `K` and `e ∈ [0, 1)`, every element of the
radial-velocity output has absolute value at most `K·(1 + e)`. -/
theorem rv_amplitude_bound (times : List ℝ) (P K e omega phi0 anomaly_tol : ℝ)
    (hK : 0 ≤ K) (he0 : 0 ≤ e) (he1 : e < 1) :
    ∀ v ∈ rv_from_elements times P K e omega phi0 anomaly_tol,
      |v| ≤ K * (1 + e) := by
  intro v hv
  simp only [rv_from_elements, List.map_map, List.mem_map,
    Function.comp_apply] at hv
  obtain ⟨t, _, rfl⟩ := hv
  exact abs_K_cos_add_mul_cos_le K e _ omega hK he0

/-- Witness for C9 at `times = [0]`, `P = 10`, `K = 30`, `e = 3/10`, `ω = 1`,
`φ0 = 0`, `anomaly_tol = 1e-13`. -/
theorem rv_amplitude_bound_witness :
    |(rv_from_elements [0] 10 30 (3/10) 1 0 1e-13).headI| ≤ 30 * (1 + 3/10) :=
  rv_amplitude_bound [0] 10 30 (3/10) 1 0 1e-13 (by norm_num) (by norm_num)
    (by norm_num) _ (by simp [rv_from_elements])

end TwoBody
